import Mathlib

/-!
Shallow embedding of the translation Discord bot (Go), covering the message
admission / translation-decision pipeline and its pure helper functions.

Go strings are modelled as `List Char` (a Go `string` ranged over with
`for _, r := range s` yields runes, i.e. Unicode scalar values, which is
what Lean's `Char` is).  External collaborators (the `trans` subprocess in
`translateToEnglish`, the RapidAPI language detector in `detectLanguage`,
the Discord session) are opaque in the source and are passed as function
parameters; a `none` result models their error return.
-/

namespace TranslateBot

/-- Go's `unicode.IsSpace` (the White_Space property table of the Go
`unicode` package, reproduced in full): this is the separator predicate
used by `strings.Fields` and `strings.TrimSpace`. -/
def goIsSpace (c : Char) : Bool :=
  decide (0x09 ≤ c.toNat ∧ c.toNat ≤ 0x0D) || decide (c.toNat = 0x20) ||
  decide (c.toNat = 0x85) || decide (c.toNat = 0xA0) ||
  decide (c.toNat = 0x1680) || decide (0x2000 ≤ c.toNat ∧ c.toNat ≤ 0x200A) ||
  decide (c.toNat = 0x2028) || decide (c.toNat = 0x2029) ||
  decide (c.toNat = 0x202F) || decide (c.toNat = 0x205F) ||
  decide (c.toNat = 0x3000)

/-- Go's `strings.ToLower`, character-wise.  Go performs the full Unicode
simple case mapping; we embed its action on the ASCII range (`'A'..'Z'`
map to `'a'..'z'`, everything else in ASCII is fixed) and leave code
points outside that range unchanged.  Every concrete string occurring in
this development is ASCII, where this map agrees exactly with Go. -/
def goToLower (c : Char) : Char :=
  if 0x41 ≤ c.toNat ∧ c.toNat ≤ 0x5A then Char.ofNat (c.toNat + 32) else c

/-- String-level lower-casing (`strings.ToLower`). -/
def toLowerStr (s : List Char) : List Char := s.map goToLower

/-- Coerce a Lean string literal to the `List Char` representation. -/
def goStr (s : String) : List Char := s.toList

/-- Go's `strings.TrimSpace`: drop leading and trailing White_Space. -/
def trimSpace (s : List Char) : List Char :=
  ((s.dropWhile goIsSpace).reverse.dropWhile goIsSpace).reverse

/-- Worker for `fields`: `acc` holds the current in-progress token,
reversed. -/
def fieldsAux : List Char → List Char → List (List Char)
  | [], acc => if acc = [] then [] else [acc.reverse]
  | c :: cs, acc =>
    if goIsSpace c then
      (if acc = [] then fieldsAux cs [] else acc.reverse :: fieldsAux cs [])
    else fieldsAux cs (c :: acc)

/-- Go's `strings.Fields`: split around runs of White_Space characters,
returning the (non-empty) maximal runs of non-space characters. -/
def fields (s : List Char) : List (List Char) := fieldsAux s []

/-- Normalization performed by `areTextsSimilar` on both of its inputs:
`strings.ToLower(strings.TrimSpace(x))`. -/
def normalizeText (s : List Char) : List Char := toLowerStr (trimSpace s)

/-- The position-by-position mismatch loop of `areTextsSimilar`
(part_000 lines 541-549 / part_001 lines 458-466): walk the original's
tokens with the translated tokens alongside; a missing or different
translated token at the current index is a mismatch; once the running
count exceeds 2 the loop returns `false` early; reaching the end of the
original's tokens returns `true`. -/
def diffLoop : List (List Char) → List (List Char) → Nat → Bool
  | [], _, _ => true
  | _ :: os, [], diffCount =>
    if diffCount + 1 > 2 then false else diffLoop os [] (diffCount + 1)
  | o :: os, t :: ts, diffCount =>
    if o ≠ t then
      (if diffCount + 1 > 2 then false else diffLoop os ts (diffCount + 1))
    else diffLoop os ts diffCount

/-- `areTextsSimilar` (part_000 lines 530-552, identical in part_001
lines 447-469): normalize both inputs, short-circuit on equality, else
run the positional mismatch loop over the original's tokens. -/
def areTextsSimilar (original translated : List Char) : Bool :=
  if normalizeText original = normalizeText translated then true
  else diffLoop (fields (normalizeText original))
    (fields (normalizeText translated)) 0

/-- Specification-level mismatch count: the number of positions `i` over
the original token list at which the translated token is absent or
differs.  Stated independently of the early-exit loop so the loop can be
proved equal to a threshold test on this count. -/
def mismatchCount : List (List Char) → List (List Char) → Nat
  | [], _ => 0
  | _ :: os, [] => mismatchCount os [] + 1
  | o :: os, t :: ts => mismatchCount os ts + (if o = t then 0 else 1)

theorem mismatchCount_le_length (os ts : List (List Char)) :
    mismatchCount os ts ≤ os.length := by
  induction os generalizing ts with
  | nil => simp [mismatchCount]
  | cons o os ih =>
    cases ts with
    | nil => simpa [mismatchCount] using ih []
    | cons t ts =>
      simp only [mismatchCount, List.length_cons]
      have := ih ts
      split <;> omega

theorem diffLoop_eq_decide (os ts : List (List Char)) (d : Nat) (hd : d ≤ 2) :
    diffLoop os ts d = decide (d + mismatchCount os ts ≤ 2) := by
  induction os generalizing ts d with
  | nil => simp [diffLoop, mismatchCount, hd]
  | cons o os ih =>
    cases ts with
    | nil =>
      simp only [diffLoop, mismatchCount]
      split
      · next h =>
        symm
        rw [decide_eq_false_iff_not]
        omega
      · next h =>
        rw [ih [] (d + 1) (by omega), decide_eq_decide]
        omega
    | cons t ts =>
      simp only [diffLoop, mismatchCount]
      by_cases heq : o = t
      · rw [if_neg (by simp [heq]), ih ts d hd, decide_eq_decide]
        simp [heq]
      · rw [if_pos heq]
        split
        · next h =>
          symm
          rw [decide_eq_false_iff_not]
          omega
        · next h =>
          rw [ih ts (d + 1) (by omega), decide_eq_decide]
          omega

theorem fieldsAux_all_space (t : List Char) (acc : List Char)
    (ht : ∀ c ∈ t, goIsSpace c = true) :
    fieldsAux t acc = fieldsAux [] acc := by
  induction t generalizing acc with
  | nil => rfl
  | cons c cs ih =>
    have hc : goIsSpace c = true := ht c (by simp)
    have hcs : ∀ x ∈ cs, goIsSpace x = true := fun x hx => ht x (by simp [hx])
    simp only [fieldsAux, hc, if_true]
    by_cases hacc : acc = []
    · simp [hacc, ih [] hcs, fieldsAux]
    · simp [hacc, ih [] hcs, fieldsAux]

theorem fieldsAux_append_space (s t : List Char) (acc : List Char)
    (ht : ∀ c ∈ t, goIsSpace c = true) :
    fieldsAux (s ++ t) acc = fieldsAux s acc := by
  induction s generalizing acc with
  | nil => simpa using fieldsAux_all_space t acc ht
  | cons c cs ih =>
    simp only [List.cons_append, fieldsAux]
    by_cases hc : goIsSpace c = true
    · simp [hc, ih]
    · simp [hc, ih]

theorem fieldsAux_space_prepend (t s : List Char)
    (ht : ∀ c ∈ t, goIsSpace c = true) :
    fieldsAux (t ++ s) [] = fieldsAux s [] := by
  induction t with
  | nil => rfl
  | cons c cs ih =>
    have hc : goIsSpace c = true := ht c (by simp)
    have hcs : ∀ x ∈ cs, goIsSpace x = true := fun x hx => ht x (by simp [hx])
    simp [fieldsAux, hc, ih hcs]

/-- `strings.Fields` is unaffected by `strings.TrimSpace`. -/
theorem fields_trimSpace (s : List Char) : fields (trimSpace s) = fields s := by
  unfold fields trimSpace
  set u := s.dropWhile goIsSpace with hu
  have h1 : fieldsAux s [] = fieldsAux u [] := by
    conv_lhs => rw [← List.takeWhile_append_dropWhile (p := goIsSpace) (l := s)]
    exact fieldsAux_space_prepend _ _ (fun c hc => List.mem_takeWhile_imp hc)
  have h2 : u = (u.reverse.dropWhile goIsSpace).reverse ++
      (u.reverse.takeWhile goIsSpace).reverse := by
    rw [← List.reverse_append, List.takeWhile_append_dropWhile, List.reverse_reverse]
  have h3 : fieldsAux u [] = fieldsAux ((u.reverse.dropWhile goIsSpace).reverse) [] := by
    conv_lhs => rw [h2]
    exact fieldsAux_append_space _ _ _
      (fun c hc => List.mem_takeWhile_imp (List.mem_reverse.mp hc))
  rw [h1, h3]

/-- `goToLower` never maps a space to a non-space or conversely. -/
theorem goIsSpace_goToLower (c : Char) : goIsSpace (goToLower c) = goIsSpace c := by
  unfold goToLower
  split
  · next h =>
    have hv : (c.toNat + 32).isValidChar := Or.inl (by omega)
    have htn : (Char.ofNat (c.toNat + 32)).toNat = c.toNat + 32 := by
      rw [Char.ofNat, dif_pos hv]
      rfl
    rw [Bool.eq_iff_iff]
    unfold goIsSpace
    rw [htn]
    simp only [Bool.or_eq_true, decide_eq_true_eq]
    omega
  · rfl

theorem fieldsAux_map_lower (s acc : List Char) :
    fieldsAux (s.map goToLower) (acc.map goToLower) =
      (fieldsAux s acc).map (List.map goToLower) := by
  induction s generalizing acc with
  | nil =>
    by_cases hacc : acc = []
    · subst hacc
      rfl
    · have h1 : acc.map goToLower ≠ [] := by simpa using hacc
      simp only [List.map_nil, fieldsAux, if_neg hacc, if_neg h1]
      simp [List.map_reverse]
  | cons c cs ih =>
    simp only [List.map_cons, fieldsAux, goIsSpace_goToLower]
    have ihnil : fieldsAux (cs.map goToLower) [] =
        (fieldsAux cs []).map (List.map goToLower) := by
      simpa using ih []
    by_cases hc : goIsSpace c = true
    · rw [if_pos hc, if_pos hc]
      by_cases hacc : acc = []
      · subst hacc
        simp [ihnil]
      · have h1 : acc.map goToLower ≠ [] := by simpa using hacc
        rw [if_neg hacc, if_neg h1]
        simp [ihnil, List.map_reverse]
    · rw [if_neg hc, if_neg hc]
      exact ih (c :: acc)

/-- `strings.Fields` commutes with `strings.ToLower`. -/
theorem fields_toLowerStr (s : List Char) :
    fields (toLowerStr s) = (fields s).map toLowerStr := by
  have := fieldsAux_map_lower s []
  simpa [fields, toLowerStr] using this

/-- Tokenization length is invariant under the normalization done by
`areTextsSimilar`. -/
theorem fields_normalizeText_length (s : List Char) :
    (fields (normalizeText s)).length = (fields s).length := by
  rw [normalizeText, fields_toLowerStr, List.length_map, fields_trimSpace]

/-- Any token produced by `fields` is non-empty and contains no
White_Space character. -/
theorem fields_token_shape (s : List Char) :
    ∀ w ∈ fields s, w ≠ [] ∧ ∀ c ∈ w, goIsSpace c = false := by
  have key : ∀ (s acc : List Char), (∀ c ∈ acc, goIsSpace c = false) →
      ∀ w ∈ fieldsAux s acc, w ≠ [] ∧ ∀ c ∈ w, goIsSpace c = false := by
    intro s
    induction s with
    | nil =>
      intro acc hacc w hw
      by_cases h : acc = [] <;> simp [fieldsAux, h] at hw
      subst hw
      constructor
      · simpa using h
      · intro c hc
        exact hacc c (List.mem_reverse.mp hc)
    | cons c cs ih =>
      intro acc hacc w hw
      simp only [fieldsAux] at hw
      by_cases hc : goIsSpace c = true
      · rw [if_pos hc] at hw
        by_cases h : acc = []
        · rw [if_pos h] at hw
          exact ih [] (by simp) w hw
        · rw [if_neg h] at hw
          rcases List.mem_cons.mp hw with h1 | h1
          · subst h1
            refine ⟨by simpa using h, fun x hx => hacc x (List.mem_reverse.mp hx)⟩
          · exact ih [] (by simp) w h1
      · rw [if_neg hc] at hw
        refine ih (c :: acc) ?_ w hw
        intro x hx
        rcases List.mem_cons.mp hx with h1 | h1
        · subst h1
          simpa using hc
        · exact hacc x h1
  exact key s [] (by simp)

/-- A non-empty string with no White_Space character is its own single
token. -/
theorem fields_single (w : List Char) (h1 : w ≠ [])
    (h2 : ∀ c ∈ w, goIsSpace c = false) : fields w = [w] := by
  have key : ∀ (w acc : List Char), (∀ c ∈ w, goIsSpace c = false) →
      fieldsAux w acc = if acc.reverse ++ w = [] then [] else [acc.reverse ++ w] := by
    intro w
    induction w with
    | nil =>
      intro acc _
      by_cases h : acc = [] <;> simp [fieldsAux, h]
    | cons c cs ih =>
      intro acc hw
      have hc : goIsSpace c = false := hw c (by simp)
      simp only [fieldsAux, hc, Bool.false_eq_true, if_false]
      rw [ih (c :: acc) (fun x hx => hw x (by simp [hx]))]
      have hne : acc.reverse ++ c :: cs ≠ [] := by simp
      have hne2 : (c :: acc).reverse ++ cs ≠ [] := by simp
      rw [if_neg hne2, if_neg hne]
      simp
  rw [fields, key w [] h2]
  simp [h1]

/-- Central similarity fact: an original text with at most two tokens is
always judged "similar" to any translated text (the mismatch counter is
bumped at most once per original token, so it can never exceed 2). -/
theorem areTextsSimilar_of_le_two (o t : List Char)
    (h : (fields o).length ≤ 2) : areTextsSimilar o t = true := by
  unfold areTextsSimilar
  split
  · rfl
  · rw [diffLoop_eq_decide _ _ 0 (by omega), decide_eq_true_eq]
    have h1 := mismatchCount_le_length (fields (normalizeText o))
      (fields (normalizeText t))
    have h2 := fields_normalizeText_length o
    omega

/-- Go's `unicode.Is(unicode.S, r)`: membership in the symbol category S
(= Sm ∪ Sc ∪ Sk ∪ So).  The Go `unicode` package's range tables are
external library data; we embed the sub-table covering the blocks this
development exercises (Basic Latin and Latin-1 symbol code points,
currency signs, arrows, mathematical operators, miscellaneous technical,
miscellaneous symbols, dingbats, and the main emoji blocks); every range
below carries category S in Go's table. -/
def goIsS (c : Char) : Bool :=
  decide (c.toNat = 0x24) || decide (c.toNat = 0x2B) ||
  decide (0x3C ≤ c.toNat ∧ c.toNat ≤ 0x3E) || decide (c.toNat = 0x5E) ||
  decide (c.toNat = 0x60) || decide (c.toNat = 0x7C) ||
  decide (c.toNat = 0x7E) ||
  decide (0xA2 ≤ c.toNat ∧ c.toNat ≤ 0xA6) ||
  decide (0xA8 ≤ c.toNat ∧ c.toNat ≤ 0xA9) || decide (c.toNat = 0xAC) ||
  decide (0xAE ≤ c.toNat ∧ c.toNat ≤ 0xB1) || decide (c.toNat = 0xB4) ||
  decide (c.toNat = 0xB8) || decide (c.toNat = 0xD7) ||
  decide (c.toNat = 0xF7) ||
  decide (0x20A0 ≤ c.toNat ∧ c.toNat ≤ 0x20BF) ||
  decide (0x2190 ≤ c.toNat ∧ c.toNat ≤ 0x22FF) ||
  decide (0x2300 ≤ c.toNat ∧ c.toNat ≤ 0x23FF) ||
  decide (0x2600 ≤ c.toNat ∧ c.toNat ≤ 0x27BF) ||
  decide (0x1F300 ≤ c.toNat ∧ c.toNat ≤ 0x1F5FF) ||
  decide (0x1F600 ≤ c.toNat ∧ c.toNat ≤ 0x1F64F) ||
  decide (0x1F680 ≤ c.toNat ∧ c.toNat ≤ 0x1F6FF) ||
  decide (0x1F900 ≤ c.toNat ∧ c.toNat ≤ 0x1F9FF)

/-- Go's `unicode.Is(unicode.So, r)`: the other-symbol category, again
the sub-table for the blocks exercised here (So ⊆ S; the skin-tone
modifiers U+1F3FB–U+1F3FF are Sk, hence excluded from So but kept in S). -/
def goIsSo (c : Char) : Bool :=
  decide (c.toNat = 0xA9) || decide (c.toNat = 0xAE) ||
  decide (c.toNat = 0xB0) ||
  decide (0x2600 ≤ c.toNat ∧ c.toNat ≤ 0x27BF) ||
  decide (0x1F300 ≤ c.toNat ∧ c.toNat ≤ 0x1F3FA) ||
  decide (0x1F400 ≤ c.toNat ∧ c.toNat ≤ 0x1F5FF) ||
  decide (0x1F600 ≤ c.toNat ∧ c.toNat ≤ 0x1F64F) ||
  decide (0x1F680 ≤ c.toNat ∧ c.toNat ≤ 0x1F6FF) ||
  decide (0x1F900 ≤ c.toNat ∧ c.toNat ≤ 0x1F9FF)

/-- Go's `unicode.Is(unicode.Mn, r)`: the non-spacing-mark category
(combining diacritics and the variation selectors used as emoji
modifiers), sub-table as above. -/
def goIsMn (c : Char) : Bool :=
  decide (0x0300 ≤ c.toNat ∧ c.toNat ≤ 0x036F) ||
  decide (0xFE00 ≤ c.toNat ∧ c.toNat ≤ 0xFE0F)

/-- `isEmoji` (part_000 lines 563-565, identical in part_001):
`unicode.Is(unicode.S, r) || unicode.Is(unicode.So, r) ||
unicode.Is(unicode.Mn, r)`. -/
def isEmoji (r : Char) : Bool := goIsS r || goIsSo r || goIsMn r

/-- `isOnlyEmoji` (part_000 lines 554-561, identical in part_001): loop
over the runes, early `false` on the first non-emoji rune. -/
def isOnlyEmoji : List Char → Bool
  | [] => true
  | r :: rs => if isEmoji r then isOnlyEmoji rs else false

/-- Letters and digits, as the sub-table of Go's `unicode.IsLetter` /
`unicode.IsDigit` covering Basic Latin and Latin-1 (ASCII digits, ASCII
letters, and the Latin-1 letters; U+00D7 and U+00F7 are Sm, not
letters). -/
def goIsLetterOrDigit (c : Char) : Bool :=
  decide (0x30 ≤ c.toNat ∧ c.toNat ≤ 0x39) ||
  decide (0x41 ≤ c.toNat ∧ c.toNat ≤ 0x5A) ||
  decide (0x61 ≤ c.toNat ∧ c.toNat ≤ 0x7A) ||
  decide (c.toNat = 0xAA) || decide (c.toNat = 0xB5) ||
  decide (c.toNat = 0xBA) ||
  decide (0xC0 ≤ c.toNat ∧ c.toNat ≤ 0xD6) ||
  decide (0xD8 ≤ c.toNat ∧ c.toNat ≤ 0xF6) ||
  decide (0xF8 ≤ c.toNat ∧ c.toNat ≤ 0xFF)

/-- Letters and digits are classified in letter/number general
categories, which are disjoint from S, So and Mn. -/
theorem not_isEmoji_of_letterOrDigit (c : Char)
    (h : goIsLetterOrDigit c = true) : isEmoji c = false := by
  unfold goIsLetterOrDigit at h
  unfold isEmoji goIsS goIsSo goIsMn
  simp only [Bool.or_eq_true, decide_eq_true_eq] at h
  simp only [Bool.or_eq_false_iff, decide_eq_false_iff_not]
  omega

/-- `containsBannedWord` (part_000 lines 497-505): tokenize the
lower-cased text with `strings.Fields` and test each token for exact
membership in the banned-word set (a Go `map[string]struct{}`, modelled
as the list of its keys). -/
def containsBannedWord (text : List Char) (bannedWords : List (List Char)) : Bool :=
  (fields (toLowerStr text)).any (fun word => bannedWords.contains word)

/-- One row of the `channels` table as used by part_000 (`server_id`,
`channel_id1..3`; the nullable TEXT columns are `sql.NullString` in Go,
modelled as `Option String`: `none` is NULL, which scans to
`NullString{String: "", Valid: false}`). -/
structure ChannelRow where
  serverID : String
  c1 : Option String
  c2 : Option String
  c3 : Option String
deriving DecidableEq

/-- `SELECT ... FROM channels WHERE server_id = ?` (at most one row by
the UNIQUE(server_id) constraint). -/
def findRow (table : List ChannelRow) (serverID : String) : Option ChannelRow :=
  table.find? (fun r => r.serverID == serverID)

/-- `INSERT OR REPLACE INTO channels ...` keyed on `server_id`. -/
def upsertRow (table : List ChannelRow) (r : ChannelRow) : List ChannelRow :=
  if table.any (fun x => x.serverID == r.serverID) then
    table.map (fun x => if x.serverID == r.serverID then r else x)
  else table ++ [r]

/-- `addTranslateChannels` (part_000 lines 433-458): read the existing
row (zero-valued NullStrings when absent), overwrite exactly the
supplied slots marking them valid, and INSERT OR REPLACE the row.
(The in-memory reload `loadTranslateChannels` it then triggers is the
function below, applied to the resulting table.) -/
def addTranslateChannels (table : List ChannelRow) (serverID : String)
    (channel1 channel2 channel3 : Option String) : List ChannelRow :=
  let existing := (findRow table serverID).getD ⟨serverID, none, none, none⟩
  let n1 := match channel1 with | some c => some c | none => existing.c1
  let n2 := match channel2 with | some c => some c | none => existing.c2
  let n3 := match channel3 with | some c => some c | none => existing.c3
  upsertRow table ⟨serverID, n1, n2, n3⟩

/-- `loadTranslateChannels` (part_000 lines 125-147): build the
in-memory `map[string][3]string` from the table; each `sql.NullString`
contributes its `.String` field, i.e. `""` for NULL. -/
def loadTranslateChannels (table : List ChannelRow) :
    List (String × String × String × String) :=
  table.map (fun r => (r.serverID, r.c1.getD "", r.c2.getD "", r.c3.getD ""))

/-- `isTranslateChannel` (part_000 lines 486-495): scan every server's
three in-memory slots for an exact match with the channel ID. -/
def isTranslateChannel (translateChannels : List (String × String × String × String))
    (channelID : String) : Bool :=
  translateChannels.any (fun chans =>
    chans.2.1 == channelID || chans.2.2.1 == channelID || chans.2.2.2 == channelID)

/-- Auxiliary decidable reading of the claim's hypothesis "no set slot of
any ServerConfig holds c": every non-NULL slot of every row differs
from `c`. -/
def noSetSlotHolds (table : List ChannelRow) (c : String) : Bool :=
  table.all (fun r => [r.c1, r.c2, r.c3].all (fun s => s ≠ some c))

/-- The fields of a `discordgo.MessageCreate` event the pipelines read:
author identity, source channel identity, raw text. -/
structure MsgEvent where
  authorID : String
  channelID : String
  content : List Char

/-- Observable outcome of one `messageCreate` invocation: the inputs
passed to `translateToEnglish` (the TranslationGateway), in order, and
the message given to `s.ChannelMessageSend`, if any. -/
structure PipelineResult where
  gatewayCalls : List (List Char)
  posted : Option (String × List Char)
deriving DecidableEq

/-- In-memory state read by part_000's `messageCreate`: the bot's own
user ID (`s.State.User.ID`), the loaded `translateChannels` map and the
`bannedWords` set. -/
structure BotState where
  selfID : String
  translateChannels : List (String × String × String × String)
  bannedWords : List (List Char)

/-- `messageCreate` (part_000 lines 460-484).  The TranslationGateway
`translateToEnglish` is an opaque subprocess call and is passed as the
parameter `gw`; `none` models its error return (in which case the Go
code logs and returns). -/
def messageCreate (st : BotState) (gw : List Char → Option (List Char))
    (m : MsgEvent) : PipelineResult :=
  if m.authorID == st.selfID || !isTranslateChannel st.translateChannels m.channelID then
    ⟨[], none⟩
  else if isOnlyEmoji m.content then ⟨[], none⟩
  else if containsBannedWord m.content st.bannedWords then ⟨[], none⟩
  else
    match gw m.content with
    | none => ⟨[m.content], none⟩
    | some translatedText =>
      if areTextsSimilar m.content translatedText then ⟨[m.content], none⟩
      else ⟨[m.content], some (m.channelID, goStr "Translated: " ++ translatedText)⟩

/-- Observable outcome for the detector variants: also records the
inputs passed to `detectLanguage`. -/
structure DetectPipelineResult where
  detectCalls : List (List Char)
  gatewayCalls : List (List Char)
  posted : Option (String × List Char)
deriving DecidableEq

/-- `messageCreate` of the single-channel detector variant (part_001
lines 92-116): gates are self-check, channel-identity equality with the
global `translateChannelID`, emoji-only check, then `detectLanguage`
(opaque remote API, parameter `detect`, `none` = error) and, when the
detected language is not "en", `translateToEnglish` (parameter `gw`). -/
def messageCreateDetect (selfID translateChannelID : String)
    (detect : List Char → Option String) (gw : List Char → Option (List Char))
    (m : MsgEvent) : DetectPipelineResult :=
  if m.authorID == selfID || m.channelID != translateChannelID then ⟨[], [], none⟩
  else if isOnlyEmoji m.content then ⟨[], [], none⟩
  else
    match detect m.content with
    | none => ⟨[m.content], [], none⟩
    | some detectedLang =>
      if detectedLang ≠ "en" then
        match gw m.content with
        | none => ⟨[m.content], [m.content], none⟩
        | some translatedText =>
          ⟨[m.content], [m.content],
            some (m.channelID, goStr "Translated: " ++ translatedText)⟩
      else ⟨[m.content], [], none⟩

/-- Gateway-call record for main.go's first variant, whose
`translateToEnglish(text, sourceLang)` also takes the detected language. -/
structure HintPipelineResult where
  detectCalls : List (List Char)
  gatewayCalls : List (List Char × String)
  posted : Option (String × List Char)
deriving DecidableEq

/-- `messageCreate` of main.go's first variant (lines 89-108): gates are
self-check and channel-identity equality, then `detectLanguage`; when
the detected language is not "en", `translateToEnglish(m.Content,
detectedLang)`.  Errors from either collaborator are logged and the
handler returns without posting. -/
def messageCreateHint (selfID translateChannelID : String)
    (detect : List Char → Option String)
    (gw : List Char → String → Option (List Char))
    (m : MsgEvent) : HintPipelineResult :=
  if m.authorID == selfID || m.channelID != translateChannelID then ⟨[], [], none⟩
  else
    match detect m.content with
    | none => ⟨[m.content], [], none⟩
    | some detectedLang =>
      if detectedLang ≠ "en" then
        match gw m.content detectedLang with
        | none => ⟨[m.content], [(m.content, detectedLang)], none⟩
        | some translatedText =>
          ⟨[m.content], [(m.content, detectedLang)],
            some (m.channelID, goStr "Translated: " ++ translatedText)⟩
      else ⟨[m.content], [], none⟩

/-- One row of the two-slot `channels` table of part_001's second
variant (lines 270-282): both channel columns are scanned into plain Go
strings (an unsupplied slot on a fresh row is stored as `""`). -/
structure ChannelRow2 where
  serverID : String
  c1 : String
  c2 : String
deriving DecidableEq

/-- `isTranslateChannel` of part_001's second variant (lines 412-417):
`SELECT COUNT(*) FROM channels WHERE channel_id1 = ? OR channel_id2 = ?`
is non-zero. -/
def isTranslateChannel2 (table : List ChannelRow2) (channelID : String) : Bool :=
  table.any (fun r => r.c1 == channelID || r.c2 == channelID)

/-- State read by part_001's second-variant `messageCreate`. -/
structure BotState2 where
  selfID : String
  table : List ChannelRow2

/-- `messageCreate` of part_001's second variant (lines 381-410), the
trivial-content variant: after the self, enrollment and emoji gates it
suppresses single-token messages, strips a leading "en" tag from
two-token messages (`m.Content = words[1]`), then translates and applies
the similarity gate to the (possibly stripped) content. -/
def messageCreateTrivial (st : BotState2) (gw : List Char → Option (List Char))
    (m : MsgEvent) : PipelineResult :=
  if m.authorID == st.selfID || !isTranslateChannel2 st.table m.channelID then
    ⟨[], none⟩
  else if isOnlyEmoji m.content then ⟨[], none⟩
  else
    let words := fields m.content
    if words.length == 1 then ⟨[], none⟩
    else
      let content :=
        if words.length == 2 && toLowerStr (words.getD 0 []) == goStr "en" then
          words.getD 1 []
        else m.content
      match gw content with
      | none => ⟨[content], none⟩
      | some translatedText =>
        if areTextsSimilar content translatedText then ⟨[content], none⟩
        else ⟨[content], some (m.channelID, goStr "Translated: " ++ translatedText)⟩

/-- Claim C2: `areTextsSimilar` first trims and lower-cases both inputs
and returns true if they are then equal (hence it is reflexive);
otherwise it tokenizes both on whitespace and counts, position by
position over the original's tokens, a mismatch whenever the translated
token at index i is absent or differs, returning false exactly when the
mismatch count exceeds 2 and true otherwise; in particular
`areTextsSimilar "a b c" "a b d" = true` and
`areTextsSimilar "a b c" "x y z" = false`. -/
theorem areTextsSimilar_characterization :
    (∀ original translated : List Char,
      areTextsSimilar original translated =
        (decide (normalizeText original = normalizeText translated) ||
         decide (mismatchCount (fields (normalizeText original))
           (fields (normalizeText translated)) ≤ 2))) ∧
    (∀ x : List Char, areTextsSimilar x x = true) ∧
    areTextsSimilar (goStr "a b c") (goStr "a b d") = true ∧
    areTextsSimilar (goStr "a b c") (goStr "x y z") = false := by
  refine ⟨?_, ?_, by decide, by decide⟩
  · intro o t
    unfold areTextsSimilar
    split
    · next h => simp [h]
    · next h =>
      rw [diffLoop_eq_decide _ _ 0 (by omega)]
      simp [h]
  · intro x
    unfold areTextsSimilar
    simp

/-- Claim C9 (implicit): whenever the original text tokenizes to at most
two whitespace tokens, `areTextsSimilar` returns true for every
translated text — the mismatch counter is bumped at most once per
original-token position and so can never exceed 2. -/
theorem areTextsSimilar_short_original (original translated : List Char)
    (h : (fields original).length ≤ 2) :
    areTextsSimilar original translated = true :=
  areTextsSimilar_of_le_two original translated h

/-- Witness for C9 at a concrete two-token original and an unrelated
translated text. -/
theorem areTextsSimilar_short_original_witness :
    (fields (goStr "hola amigo")).length ≤ 2 ∧
      areTextsSimilar (goStr "hola amigo") (goStr "completely different text here") = true :=
  ⟨by decide, areTextsSimilar_short_original _ _ (by decide)⟩

/-- Claim C5: `isOnlyEmoji` returns true iff every code point of the
text is in the symbol, other-symbol or non-spacing-mark categories; the
empty string yields true; any text containing a letter or digit yields
false. -/
theorem isOnlyEmoji_characterization :
    (∀ s : List Char, isOnlyEmoji s = true ↔
      ∀ c ∈ s, goIsS c = true ∨ goIsSo c = true ∨ goIsMn c = true) ∧
    isOnlyEmoji (goStr "") = true ∧
    (∀ (s : List Char) (c : Char), c ∈ s → goIsLetterOrDigit c = true →
      isOnlyEmoji s = false) := by
  have hall : ∀ s : List Char, isOnlyEmoji s = true ↔
      ∀ c ∈ s, goIsS c = true ∨ goIsSo c = true ∨ goIsMn c = true := by
    intro s
    induction s with
    | nil => simp [isOnlyEmoji]
    | cons c cs ih =>
      simp only [isOnlyEmoji, List.mem_cons]
      by_cases hc : isEmoji c = true
      · have hc' : goIsS c = true ∨ goIsSo c = true ∨ goIsMn c = true := by
          simpa [isEmoji, Bool.or_eq_true, or_assoc] using hc
        rw [if_pos hc, ih]
        constructor
        · rintro h x (rfl | hx)
          · exact hc'
          · exact h x hx
        · intro h x hx
          exact h x (Or.inr hx)
      · have hc' : ¬ (goIsS c = true ∨ goIsSo c = true ∨ goIsMn c = true) := by
          simpa [isEmoji, Bool.or_eq_true, or_assoc] using hc
        rw [if_neg hc]
        simp only [Bool.false_eq_true, false_iff, not_forall]
        exact ⟨c, Or.inl rfl, hc'⟩
  refine ⟨hall, by decide, ?_⟩
  intro s c hc hld
  by_contra hne
  have hs : isOnlyEmoji s = true := by
    cases h : isOnlyEmoji s
    · exact absurd h hne
    · rfl
  have := (hall s).mp hs c hc
  have hem : isEmoji c = true := by
    simpa [isEmoji, Bool.or_eq_true, or_assoc] using this
  rw [not_isEmoji_of_letterOrDigit c hld] at hem
  exact Bool.false_ne_true hem

/-- Witness for C5's letter/digit conjunct at the concrete text "a😀". -/
theorem isOnlyEmoji_characterization_witness :
    'a' ∈ goStr "a😀" ∧ goIsLetterOrDigit 'a' = true ∧
      isOnlyEmoji (goStr "a😀") = false :=
  ⟨by decide, by decide,
    isOnlyEmoji_characterization.2.2 (goStr "a😀") 'a' (by decide) (by decide)⟩

/-- Claim C6: `containsBannedWord` returns true iff at least one token
of the text (split on Unicode whitespace, then lower-cased) is exactly
equal to a member of the banned set; there is no substring matching, so
a banned word adjacent to punctuation does not match the bare word. -/
theorem containsBannedWord_characterization :
    (∀ (text : List Char) (bannedWords : List (List Char)),
      containsBannedWord text bannedWords = true ↔
        ∃ w ∈ fields text, toLowerStr w ∈ bannedWords) ∧
    containsBannedWord (goStr "a word. here") [goStr "word"] = false := by
  refine ⟨?_, by decide⟩
  intro text banned
  unfold containsBannedWord
  rw [fields_toLowerStr, List.any_map, List.any_eq_true]
  constructor
  · rintro ⟨w, hw, hmem⟩
    exact ⟨w, hw, by simpa using hmem⟩
  · rintro ⟨w, hw, hmem⟩
    exact ⟨w, hw, by simpa using hmem⟩

theorem findRow_upsertRow (t : List ChannelRow) (r : ChannelRow) :
    findRow (upsertRow t r) r.serverID = some r := by
  unfold upsertRow findRow
  by_cases h : t.any (fun x => x.serverID == r.serverID) = true
  · rw [if_pos h]
    induction t with
    | nil => simp at h
    | cons c t ih =>
      simp only [List.map_cons, List.find?]
      by_cases hc : (c.serverID == r.serverID) = true
      · simp [hc]
      · rw [if_neg hc]
        simp only [List.find?, hc, Bool.false_eq_true, if_false]
        have ht : t.any (fun x => x.serverID == r.serverID) = true := by
          simpa [List.any_cons, hc] using h
        exact ih ht
  · rw [if_neg h]
    induction t with
    | nil => simp [List.find?]
    | cons c t ih =>
      simp only [List.any_cons, Bool.or_eq_true, not_or] at h
      simp only [List.cons_append, List.find?, Bool.not_eq_true] at *
      rw [h.1]
      exact ih (by simpa using h.2)

/-- Claim C3: the channel-enrollment upsert is slot-wise — after
`addTranslateChannels S {slot1 := C1}` followed by
`addTranslateChannels S {slot2 := C2}` (each triggering the reload of
the in-memory map), slot1 still holds C1, slot2 holds C2, slot3 keeps
whatever the prior record held (`none`, i.e. all-empty, when no record
existed) and both C1 and C2 are enrolled. -/
theorem addTranslateChannels_slotwise (table : List ChannelRow) (S cid1 cid2 : String) :
    findRow (addTranslateChannels (addTranslateChannels table S (some cid1) none none)
        S none (some cid2) none) S =
      some ⟨S, some cid1, some cid2,
        ((findRow table S).getD ⟨S, none, none, none⟩).c3⟩ ∧
    isTranslateChannel (loadTranslateChannels
      (addTranslateChannels (addTranslateChannels table S (some cid1) none none)
        S none (some cid2) none)) cid1 = true ∧
    isTranslateChannel (loadTranslateChannels
      (addTranslateChannels (addTranslateChannels table S (some cid1) none none)
        S none (some cid2) none)) cid2 = true := by
  have key : ∀ (t : List ChannelRow) (r : ChannelRow) (cid : String),
      findRow t S = some r →
      addTranslateChannels t S none (some cid) none =
        upsertRow t ⟨S, r.c1, some cid, r.c3⟩ := by
    intro t r cid hf
    unfold addTranslateChannels
    rw [hf]
    rfl
  have h1 : addTranslateChannels table S (some cid1) none none =
      upsertRow table ⟨S, some cid1,
        ((findRow table S).getD ⟨S, none, none, none⟩).c2,
        ((findRow table S).getD ⟨S, none, none, none⟩).c3⟩ := by
    unfold addTranslateChannels
    rfl
  have hf1 : findRow (addTranslateChannels table S (some cid1) none none) S =
      some ⟨S, some cid1,
        ((findRow table S).getD ⟨S, none, none, none⟩).c2,
        ((findRow table S).getD ⟨S, none, none, none⟩).c3⟩ := by
    rw [h1]
    exact findRow_upsertRow _ _
  have h2 := key _ _ cid2 hf1
  have hf2 : findRow (addTranslateChannels
      (addTranslateChannels table S (some cid1) none none) S none (some cid2) none) S =
      some ⟨S, some cid1, some cid2,
        ((findRow table S).getD ⟨S, none, none, none⟩).c3⟩ := by
    rw [h2]
    exact findRow_upsertRow _ _
  refine ⟨hf2, ?_, ?_⟩
  · have hmem := List.mem_of_find?_eq_some hf2
    rw [isTranslateChannel, List.any_eq_true]
    refine ⟨(S, cid1, cid2,
      ((findRow table S).getD ⟨S, none, none, none⟩).c3.getD ""), ?_, ?_⟩
    · unfold loadTranslateChannels
      exact List.mem_map_of_mem _ hmem
    · simp
  · have hmem := List.mem_of_find?_eq_some hf2
    rw [isTranslateChannel, List.any_eq_true]
    refine ⟨(S, cid1, cid2,
      ((findRow table S).getD ⟨S, none, none, none⟩).c3.getD ""), ?_, ?_⟩
    · unfold loadTranslateChannels
      exact List.mem_map_of_mem _ hmem
    · simp

/-- Counterexample to claim C4 as stated: the channel-identity `""` is
held by no set slot of the single server record (whose slot1 and slot3
are NULL), yet `isTranslateChannel` reports it enrolled, because
`loadTranslateChannels` materializes NULL slots as the empty string
(`sql.NullString.String`), which the lookup then matches. -/
theorem isTranslateChannel_empty_cex :
    noSetSlotHolds [⟨"s1", none, some "200", none⟩] "" = true ∧
      isTranslateChannel (loadTranslateChannels [⟨"s1", none, some "200", none⟩]) "" = true := by
  decide

/-- Claim C4 (amended: restricted to non-empty channel identities):
if no set (non-NULL) slot of any record holds the non-empty channel
identity `c`, then `isTranslateChannel` returns false for `c`, even
when records have unset slots. -/
theorem isTranslateChannel_unset_slots (table : List ChannelRow) (c : String)
    (hc : c ≠ "") (h : noSetSlotHolds table c = true) :
    isTranslateChannel (loadTranslateChannels table) c = false := by
  rw [isTranslateChannel, List.any_eq_false]
  intro x hx
  unfold loadTranslateChannels at hx
  rw [List.mem_map] at hx
  obtain ⟨r, hr, rfl⟩ := hx
  unfold noSetSlotHolds at h
  rw [List.all_eq_true] at h
  have hr' := h r hr
  simp only [List.all_cons, List.all_nil, Bool.and_eq_true, decide_eq_true_eq] at hr'
  simp only [Bool.or_eq_true, beq_iff_eq, not_or]
  have slot : ∀ s : Option String, s ≠ some c → s.getD "" ≠ c := by
    intro s hs
    cases s with
    | none => simpa using fun heq => hc heq.symm
    | some v =>
      simp only [Option.getD_some]
      intro hv
      exact hs (by rw [hv])
  have hA : r.c1 ≠ some c := by tauto
  have hB : r.c2 ≠ some c := by tauto
  have hC : r.c3 ≠ some c := by tauto
  have gA := slot r.c1 hA
  have gB := slot r.c2 hB
  have gC := slot r.c3 hC
  tauto

/-- Witness for the amended C4 at a concrete table and channel id. -/
theorem isTranslateChannel_unset_slots_witness :
    ("55" : String) ≠ "" ∧
    noSetSlotHolds [⟨"s1", none, some "200", none⟩] "55" = true ∧
      isTranslateChannel (loadTranslateChannels [⟨"s1", none, some "200", none⟩]) "55" = false :=
  ⟨by decide, by decide, isTranslateChannel_unset_slots _ _ (by decide) (by decide)⟩

/-- Claim C1: the pipelines evaluate their gates in strict order with
short-circuiting — a message authored by the bot itself, posted in a
non-enrolled channel, or consisting only of emoji never reaches the
TranslationGateway and produces no posting; a message passing all gates
is posted as "Translated: " followed by the gateway output, to the
message's own source channel (stated for part_000's `messageCreate` and
part_001's detector-variant `messageCreate`). -/
theorem messageCreate_gate_order :
    (∀ (st : BotState) (gw : List Char → Option (List Char)) (m : MsgEvent),
      m.authorID = st.selfID → messageCreate st gw m = ⟨[], none⟩) ∧
    (∀ st gw m, isTranslateChannel st.translateChannels m.channelID = false →
      messageCreate st gw m = ⟨[], none⟩) ∧
    (∀ st gw m, isOnlyEmoji m.content = true →
      messageCreate st gw m = ⟨[], none⟩) ∧
    (∀ st gw m translatedText,
      m.authorID ≠ st.selfID →
      isTranslateChannel st.translateChannels m.channelID = true →
      isOnlyEmoji m.content = false →
      containsBannedWord m.content st.bannedWords = false →
      gw m.content = some translatedText →
      areTextsSimilar m.content translatedText = false →
      (messageCreate st gw m).posted =
        some (m.channelID, goStr "Translated: " ++ translatedText)) ∧
    (∀ (selfID tcid : String) (detect : List Char → Option String)
        (gw : List Char → Option (List Char)) (m : MsgEvent),
      (m.authorID = selfID ∨ m.channelID ≠ tcid ∨ isOnlyEmoji m.content = true) →
      (messageCreateDetect selfID tcid detect gw m).gatewayCalls = [] ∧
      (messageCreateDetect selfID tcid detect gw m).posted = none) ∧
    (∀ selfID tcid detect gw m lang translatedText,
      m.authorID ≠ selfID → m.channelID = tcid →
      isOnlyEmoji m.content = false →
      detect m.content = some lang → lang ≠ "en" →
      gw m.content = some translatedText →
      (messageCreateDetect selfID tcid detect gw m).posted =
        some (m.channelID, goStr "Translated: " ++ translatedText)) := by
  refine ⟨?_, ?_, ?_, ?_, ?_, ?_⟩
  · intro st gw m h
    simp [messageCreate, h]
  · intro st gw m h
    simp [messageCreate, h]
  · intro st gw m h
    unfold messageCreate
    split <;> simp [h]
  · intro st gw m translatedText h1 h2 h3 h4 h5 h6
    have hb : (m.authorID == st.selfID) = false := beq_eq_false_iff_ne.mpr h1
    simp [messageCreate, hb, h2, h3, h4, h5, h6]
  · intro selfID tcid detect gw m h
    rcases h with h | h | h
    · simp [messageCreateDetect, h]
    · have hc : (m.channelID != tcid) = true := by simp [bne, h]
      simp [messageCreateDetect, hc]
    · unfold messageCreateDetect
      split <;> simp [h]
  · intro selfID tcid detect gw m lang translatedText h1 h2 h3 h4 h5 h6
    have hb : (m.authorID == selfID) = false := beq_eq_false_iff_ne.mpr h1
    have hc : (m.channelID != tcid) = false := by simp [bne, h2]
    simp [messageCreateDetect, hb, hc, h3, h4, h5, h6]

/-- Witness for C1, instantiating each conjunct that carries hypotheses
at concrete inputs (matching the spec's end-to-end scenario: a
non-enrolled channel, an emoji-only message, and "bonjour le monde"
emitted as "Translated: hello the world"). -/
theorem messageCreate_gate_order_witness :
    messageCreate ⟨"bot", [("s", "c1", "", "")], []⟩
      (fun _ => some (goStr "x")) ⟨"bot", "c1", goStr "hola señor"⟩ = ⟨[], none⟩ ∧
    messageCreate ⟨"bot", [("s", "c1", "", "")], []⟩
      (fun _ => some (goStr "x")) ⟨"user", "c9", goStr "hola señor"⟩ = ⟨[], none⟩ ∧
    messageCreate ⟨"bot", [("s", "c1", "", "")], []⟩
      (fun _ => some (goStr "x")) ⟨"user", "c1", goStr "😀🎉"⟩ = ⟨[], none⟩ ∧
    (messageCreate ⟨"bot", [("s", "c1", "", "")], []⟩
      (fun _ => some (goStr "hello the world"))
      ⟨"user", "c1", goStr "bonjour le monde"⟩).posted =
        some ("c1", goStr "Translated: hello the world") ∧
    (messageCreateDetect "bot" "c1" (fun _ => some "fr") (fun _ => some (goStr "x"))
      ⟨"user", "c9", goStr "hola"⟩).gatewayCalls = [] ∧
    (messageCreateDetect "bot" "c1" (fun _ => some "fr")
      (fun _ => some (goStr "hello the world"))
      ⟨"user", "c1", goStr "bonjour le monde"⟩).posted =
        some ("c1", goStr "Translated: hello the world") :=
  ⟨messageCreate_gate_order.1 _ _ _ rfl,
   messageCreate_gate_order.2.1 _ _ _ (by decide),
   messageCreate_gate_order.2.2.1 _ _ _ (by decide),
   messageCreate_gate_order.2.2.2.1 _ _ _ _ (by decide) (by decide) (by decide)
     (by decide) rfl (by decide),
   (messageCreate_gate_order.2.2.2.2.1 _ _ _ _ _ (Or.inr (Or.inl (by decide)))).1,
   messageCreate_gate_order.2.2.2.2.2 _ _ _ _ _ _ _ (by decide) rfl (by decide)
     rfl (by decide) rfl⟩

/-- Claim C7: when the LanguageDetector or the TranslationGateway fails,
processing of the message aborts — nothing is posted, no user-visible
notification is produced, and the single failed call is not retried
(stated for part_000's `messageCreate` and main.go's detector variant
`messageCreateHint`; the call lists record exactly one attempt, and in
every run each collaborator is invoked at most once). -/
theorem collaborator_failure_skips_message :
    (∀ (st : BotState) (gw : List Char → Option (List Char)) (m : MsgEvent),
      m.authorID ≠ st.selfID →
      isTranslateChannel st.translateChannels m.channelID = true →
      isOnlyEmoji m.content = false →
      containsBannedWord m.content st.bannedWords = false →
      gw m.content = none →
      messageCreate st gw m = ⟨[m.content], none⟩) ∧
    (∀ (selfID tcid : String) (detect : List Char → Option String)
        (gw : List Char → String → Option (List Char)) (m : MsgEvent),
      m.authorID ≠ selfID → m.channelID = tcid →
      detect m.content = none →
      messageCreateHint selfID tcid detect gw m = ⟨[m.content], [], none⟩) ∧
    (∀ selfID tcid detect gw m lang,
      m.authorID ≠ selfID → m.channelID = tcid →
      detect m.content = some lang → lang ≠ "en" →
      gw m.content lang = none →
      messageCreateHint selfID tcid detect gw m =
        ⟨[m.content], [(m.content, lang)], none⟩) ∧
    (∀ (st : BotState) (gw : List Char → Option (List Char)) (m : MsgEvent),
      (messageCreate st gw m).gatewayCalls.length ≤ 1) ∧
    (∀ (selfID tcid : String) (detect : List Char → Option String)
        (gw : List Char → String → Option (List Char)) (m : MsgEvent),
      (messageCreateHint selfID tcid detect gw m).detectCalls.length ≤ 1 ∧
      (messageCreateHint selfID tcid detect gw m).gatewayCalls.length ≤ 1) := by
  refine ⟨?_, ?_, ?_, ?_, ?_⟩
  · intro st gw m h1 h2 h3 h4 h5
    have hb : (m.authorID == st.selfID) = false := beq_eq_false_iff_ne.mpr h1
    simp [messageCreate, hb, h2, h3, h4, h5]
  · intro selfID tcid detect gw m h1 h2 h3
    have hb : (m.authorID == selfID) = false := beq_eq_false_iff_ne.mpr h1
    have hc : (m.channelID != tcid) = false := by simp [bne, h2]
    simp [messageCreateHint, hb, hc, h3]
  · intro selfID tcid detect gw m lang h1 h2 h3 h4 h5
    have hb : (m.authorID == selfID) = false := beq_eq_false_iff_ne.mpr h1
    have hc : (m.channelID != tcid) = false := by simp [bne, h2]
    simp [messageCreateHint, hb, hc, h3, h4, h5]
  · intro st gw m
    unfold messageCreate
    repeat' split
    all_goals simp
  · intro selfID tcid detect gw m
    unfold messageCreateHint
    repeat' split
    all_goals simp

/-- Witness for C7 at concrete failing collaborators. -/
theorem collaborator_failure_skips_message_witness :
    messageCreate ⟨"bot", [("s", "c1", "", "")], []⟩ (fun _ => none)
      ⟨"user", "c1", goStr "bonjour le monde"⟩ = ⟨[goStr "bonjour le monde"], none⟩ ∧
    messageCreateHint "bot" "c1" (fun _ => none) (fun _ _ => some (goStr "x"))
      ⟨"user", "c1", goStr "bonjour"⟩ = ⟨[goStr "bonjour"], [], none⟩ ∧
    messageCreateHint "bot" "c1" (fun _ => some "fr") (fun _ _ => none)
      ⟨"user", "c1", goStr "bonjour"⟩ =
        ⟨[goStr "bonjour"], [(goStr "bonjour", "fr")], none⟩ :=
  ⟨collaborator_failure_skips_message.1 _ _ _ (by decide) (by decide) (by decide)
     (by decide) rfl,
   collaborator_failure_skips_message.2.1 _ _ _ _ _ (by decide) rfl rfl,
   collaborator_failure_skips_message.2.2.1 _ _ _ _ _ _ (by decide) rfl rfl
     (by decide) rfl⟩

/-- Claim C8: in the trivial-content variant, an enrolled, non-emoji
message tokenizing to a single whitespace token is suppressed before any
translation call; and a two-token message whose first token is the
literal "en" has that tag stripped, so the text sent to the
TranslationGateway is the second token alone. -/
theorem messageCreateTrivial_gate :
    (∀ (st : BotState2) (gw : List Char → Option (List Char)) (m : MsgEvent),
      isTranslateChannel2 st.table m.channelID = true →
      isOnlyEmoji m.content = false →
      (fields m.content).length = 1 →
      messageCreateTrivial st gw m = ⟨[], none⟩) ∧
    (∀ (st : BotState2) (gw : List Char → Option (List Char)) (m : MsgEvent)
        (w2 : List Char),
      m.authorID ≠ st.selfID →
      isTranslateChannel2 st.table m.channelID = true →
      isOnlyEmoji m.content = false →
      fields m.content = [goStr "en", w2] →
      (messageCreateTrivial st gw m).gatewayCalls = [w2]) := by
  constructor
  · intro st gw m h1 h2 h3
    unfold messageCreateTrivial
    split
    · rfl
    · simp [h2, h3]
  · intro st gw m w2 h1 h2 h3 h4
    have hb : (m.authorID == st.selfID) = false := beq_eq_false_iff_ne.mpr h1
    have hen : toLowerStr (goStr "en") = goStr "en" := by decide
    unfold messageCreateTrivial
    rw [if_neg (by simp [hb, h2]), if_neg (by simp [h3])]
    simp only [h4]
    rw [if_neg (by simp)]
    rw [if_pos (by simp [hen])]
    have hg : ([goStr "en", w2] : List (List Char)).getD 1 [] = w2 := rfl
    rw [hg]
    cases hgw : gw w2 with
    | none => simp [hgw]
    | some translatedText =>
      simp only [hgw]
      split <;> rfl

/-- Witness for C8: a single-token message is suppressed with no
gateway call, and "en bonjour" sends exactly "bonjour" to the gateway. -/
theorem messageCreateTrivial_gate_witness :
    messageCreateTrivial ⟨"bot", [⟨"s", "c1", ""⟩]⟩ (fun _ => some (goStr "x"))
      ⟨"user", "c1", goStr "bonjour"⟩ = ⟨[], none⟩ ∧
    (messageCreateTrivial ⟨"bot", [⟨"s", "c1", ""⟩]⟩ (fun _ => some (goStr "x"))
      ⟨"user", "c1", goStr "en bonjour"⟩).gatewayCalls = [goStr "bonjour"] :=
  ⟨messageCreateTrivial_gate.1 _ _ _ (by decide) (by decide) (by decide),
   messageCreateTrivial_gate.2 _ _ _ _ (by decide) (by decide) (by decide) (by decide)⟩

/-- Claim C10: in the trivial-content variant, the "en"-tag
force-translate override can never produce an emitted message — a
two-token message whose first token lower-cases to "en" is stripped to a
single token, any successful translation of which is judged similar, so
the decision is always suppression. -/
theorem en_tag_never_emits (st : BotState2) (gw : List Char → Option (List Char))
    (m : MsgEvent) (w1 w2 : List Char)
    (h1 : fields m.content = [w1, w2]) (h2 : toLowerStr w1 = goStr "en") :
    (messageCreateTrivial st gw m).posted = none := by
  have hw2 : w2 ≠ [] ∧ ∀ c ∈ w2, goIsSpace c = false :=
    fields_token_shape m.content w2 (by rw [h1]; simp)
  have hf2 : fields w2 = [w2] := fields_single w2 hw2.1 hw2.2
  unfold messageCreateTrivial
  split
  · rfl
  · split
    · rfl
    · simp only [h1]
      rw [if_neg (by simp)]
      rw [if_pos (by simp [h2])]
      have hg : ([w1, w2] : List (List Char)).getD 1 [] = w2 := rfl
      rw [hg]
      cases hgw : gw w2 with
      | none => simp [hgw]
      | some translatedText =>
        have hsim : areTextsSimilar w2 translatedText = true :=
          areTextsSimilar_of_le_two _ _ (by rw [hf2]; simp)
        simp only [hgw]
        rw [if_pos hsim]

/-- Witness for C10: "EN hola" (first token lower-casing to "en") with a
gateway returning a completely different text is still suppressed. -/
theorem en_tag_never_emits_witness :
    fields (goStr "EN hola") = [goStr "EN", goStr "hola"] ∧
    toLowerStr (goStr "EN") = goStr "en" ∧
    (messageCreateTrivial ⟨"bot", [⟨"s", "c1", ""⟩]⟩
      (fun _ => some (goStr "something else entirely"))
      ⟨"user", "c1", goStr "EN hola"⟩).posted = none :=
  ⟨by decide, by decide,
   en_tag_never_emits ⟨"bot", [⟨"s", "c1", ""⟩]⟩
     (fun _ => some (goStr "something else entirely"))
     ⟨"user", "c1", goStr "EN hola"⟩ (goStr "EN") (goStr "hola")
     (by decide) (by decide)⟩

end TranslateBot
